import Mathlib

/-!
Shallow embedding of the interactive process I/O multiplexer of vivid-ide
(`src-tauri/src/pty.rs` and `src-tauri/src/output_capture.rs`).

The session registry (`PtyManager`) is modelled as a state machine: the
`HashMap<u32, PtySession>` becomes an association list with `Nat` keys, the
`next_id: u32` counter becomes a `Nat`, and every fallible OS interaction
(openpty, spawn_command, take_writer, try_clone_reader, write_all, flush,
resize) is an explicit `Except String Unit` input supplied by the
environment.  The stored `PtySession` payload (the PTY pair plus its boxed
writer) is opaque to the registry logic, so it is a type parameter `σ`.

The per-session reader thread and the stdout/stderr capture reader are
modelled as pure functions from the sequence of OS read results to the
sequence of emitted events.
-/

set_option autoImplicit false

namespace Vivid

variable {σ : Type}

/-- Association-list model of `HashMap<u32, PtySession>`: lookup of a key,
as performed by `sessions.get(&session_id)` / `get_mut`. -/
def lookupAssoc : List (Nat × σ) → Nat → Option σ
  | [], _ => none
  | (k, v) :: rest, key => if k = key then some v else lookupAssoc rest key

/-- Model of `HashMap::insert`: replaces the entry of an existing key,
otherwise appends a fresh entry. -/
def insertAssoc : List (Nat × σ) → Nat → σ → List (Nat × σ)
  | [], key, v => [(key, v)]
  | (k, w) :: rest, key, v =>
      if k = key then (key, v) :: rest else (k, w) :: insertAssoc rest key v

/-- Model of `HashMap::remove`: returns the removed value and the remaining
entries, or `none` when the key is absent. -/
def removeAssoc : List (Nat × σ) → Nat → Option (σ × List (Nat × σ))
  | [], _ => none
  | (k, v) :: rest, key =>
      if k = key then some (v, rest)
      else (removeAssoc rest key).map (fun p => (p.1, (k, v) :: p.2))

/-- Number of values of a `u32`: the modulus of Rust release-build wrapping
arithmetic on `u32`. -/
def u32Size : Nat := 2 ^ 32

/-- State of `PtyManager` (pty.rs:10-13): the mutex-guarded session map and
the mutex-guarded `next_id: u32` counter.  The counter is a `Nat` that every
operation keeps below `u32Size`: the only arithmetic on it, the `*id += 1`
of pty.rs:70, is modelled as addition modulo `u32Size`, the wrapping
semantics a release build gives the `u32` increment. -/
structure PtyManager (σ : Type) where
  sessions : List (Nat × σ)
  next_id : Nat
  deriving DecidableEq, Repr

/-- `PtyManager::new` (pty.rs:21-26): empty session map, counter starts at 1. -/
def PtyManager.new : PtyManager σ := ⟨[], 1⟩

/-- The command handed to `slave.spawn_command` (pty.rs:44-46):
`CommandBuilder::new(&shell)` plus the two `cmd.env(..)` calls. -/
structure Cmd where
  program : String
  env : List (String × String)
  deriving DecidableEq, Repr

/-- Environment of one `spawn_shell` call: the outcome of each fallible OS
step, the value of the `SHELL` environment variable, and the session payload
(PTY pair + writer) stored on success. -/
structure SpawnEnv (σ : Type) where
  openpty : Except String Unit
  shellVar : Option String
  spawn_command : Except String Unit
  take_writer : Except String Unit
  try_clone_reader : Except String Unit
  session : σ

/-- Observable outcome of one `spawn_shell` call: the returned result, the
manager state afterwards, the command launched into the PTY (if the spawn
step was reached), and whether the reader thread was started. -/
structure SpawnOutcome (σ : Type) where
  result : Except String Nat
  mgr : PtyManager σ
  launched : Option Cmd
  threadStarted : Bool

/-- `PtyManager::spawn_shell` (pty.rs:29-113), step by step in source order:
open the PTY, read `SHELL` falling back to `/bin/zsh`, build the command
with `TERM`/`COLORTERM`, spawn it, take the writer, clone the reader,
generate the session id (read the counter, then increment it — the `u32`
increment wraps modulo `u32Size`), insert the session, and start the reader
thread. -/
def PtyManager.spawn_shell (m : PtyManager σ) (e : SpawnEnv σ)
    (_rows _cols : Nat) : SpawnOutcome σ :=
  match e.openpty with
  | .error err => ⟨.error ("Failed to open PTY: " ++ err), m, none, false⟩
  | .ok _ =>
    let shell := e.shellVar.getD "/bin/zsh"
    let cmd : Cmd :=
      { program := shell
        env := [("TERM", "xterm-256color"), ("COLORTERM", "truecolor")] }
    match e.spawn_command with
    | .error err => ⟨.error ("Failed to spawn shell: " ++ err), m, some cmd, false⟩
    | .ok _ =>
      match e.take_writer with
      | .error err => ⟨.error ("Failed to get PTY writer: " ++ err), m, some cmd, false⟩
      | .ok _ =>
        match e.try_clone_reader with
        | .error err => ⟨.error ("Failed to get PTY reader: " ++ err), m, some cmd, false⟩
        | .ok _ =>
          let session_id := m.next_id
          ⟨.ok session_id,
           { sessions := insertAssoc m.sessions session_id e.session
             next_id := (m.next_id + 1) % u32Size },
           some cmd, true⟩

/-- Environment of one `write` call: outcomes of `write_all` and `flush`. -/
structure WriteEnv where
  write_all : Except String Unit
  flush : Except String Unit

/-- `PtyManager::write` (pty.rs:116-133): look up the session under the lock,
write the bytes, flush.  The session map itself is never altered. -/
def PtyManager.write (m : PtyManager σ) (session_id : Nat) (_data : String)
    (e : WriteEnv) : Except String Unit × PtyManager σ :=
  match lookupAssoc m.sessions session_id with
  | none => (.error ("Session " ++ toString session_id ++ " not found"), m)
  | some _ =>
    match e.write_all with
    | .error err => (.error ("Write error: " ++ err), m)
    | .ok _ =>
      match e.flush with
      | .error err => (.error ("Flush error: " ++ err), m)
      | .ok _ => (.ok (), m)

/-- `PtyManager::resize` (pty.rs:136-154): look up the session (read access),
issue the OS resize call; the registry structure is untouched. -/
def PtyManager.resize (m : PtyManager σ) (session_id : Nat)
    (_rows _cols : Nat) (e : Except String Unit) :
    Except String Unit × PtyManager σ :=
  match lookupAssoc m.sessions session_id with
  | none => (.error ("Session " ++ toString session_id ++ " not found"), m)
  | some _ =>
    match e with
    | .error err => (.error ("Resize error: " ++ err), m)
    | .ok _ => (.ok (), m)

/-- `PtyManager::close` (pty.rs:157-164): `sessions.remove(&session_id)`,
error when the key is absent. -/
def PtyManager.close (m : PtyManager σ) (session_id : Nat) :
    Except String Unit × PtyManager σ :=
  match removeAssoc m.sessions session_id with
  | none => (.error ("Session " ++ toString session_id ++ " not found"), m)
  | some (_, rest) => (.ok (), { m with sessions := rest })

/-! ### UTF-8 lossy decoding

`String::from_utf8_lossy` (pty.rs:100) is Rust standard-library code, modelled
here by a total function implementing the same "substitution of maximal
subparts" policy: a maximal valid prefix of a multi-byte sequence that cannot
be completed is replaced by one U+FFFD replacement character, and decoding
resumes at the offending byte.  Totality of the Lean function is the
"never panics" part of the behaviour. -/

/-- The Unicode replacement character U+FFFD. -/
def replacementChar : Char := '�'

/-- Is `b` a UTF-8 continuation byte (`0x80..=0xBF`)? -/
def contByte (b : Nat) : Bool := 0x80 ≤ b && b ≤ 0xBF

/-- Valid range of the second byte of a three-byte sequence with lead `b`. -/
def valid3Snd (b b1 : Nat) : Bool :=
  if b = 0xE0 then 0xA0 ≤ b1 && b1 ≤ 0xBF
  else if b = 0xED then 0x80 ≤ b1 && b1 ≤ 0x9F
  else contByte b1

/-- Valid range of the second byte of a four-byte sequence with lead `b`. -/
def valid4Snd (b b1 : Nat) : Bool :=
  if b = 0xF0 then 0x90 ≤ b1 && b1 ≤ 0xBF
  else if b = 0xF4 then 0x80 ≤ b1 && b1 ≤ 0x8F
  else contByte b1

/-- Decode one scalar value (or one replacement character) from lead byte `b`
followed by `rest`, returning the decoded character and the bytes not yet
consumed.  An invalid or incomplete sequence yields U+FFFD and resumes at the
first byte that does not fit the sequence. -/
def utf8Step (b : Nat) (rest : List Nat) : Char × List Nat :=
  if b < 0x80 then (Char.ofNat b, rest)
  else if 0xC2 ≤ b && b ≤ 0xDF then
    match rest with
    | [] => (replacementChar, [])
    | b1 :: r1 =>
      if contByte b1 then (Char.ofNat ((b - 0xC0) * 0x40 + (b1 - 0x80)), r1)
      else (replacementChar, b1 :: r1)
  else if 0xE0 ≤ b && b ≤ 0xEF then
    match rest with
    | [] => (replacementChar, [])
    | b1 :: r1 =>
      if valid3Snd b b1 then
        match r1 with
        | [] => (replacementChar, [])
        | b2 :: r2 =>
          if contByte b2 then
            (Char.ofNat ((b - 0xE0) * 0x1000 + (b1 - 0x80) * 0x40 + (b2 - 0x80)), r2)
          else (replacementChar, b2 :: r2)
      else (replacementChar, b1 :: r1)
  else if 0xF0 ≤ b && b ≤ 0xF4 then
    match rest with
    | [] => (replacementChar, [])
    | b1 :: r1 =>
      if valid4Snd b b1 then
        match r1 with
        | [] => (replacementChar, [])
        | b2 :: r2 =>
          if contByte b2 then
            match r2 with
            | [] => (replacementChar, [])
            | b3 :: r3 =>
              if contByte b3 then
                (Char.ofNat ((b - 0xF0) * 0x40000 + (b1 - 0x80) * 0x1000 +
                  (b2 - 0x80) * 0x40 + (b3 - 0x80)), r3)
              else (replacementChar, b3 :: r3)
          else (replacementChar, b2 :: r2)
      else (replacementChar, b1 :: r1)
  else (replacementChar, rest)

theorem utf8Step_snd_length_le (b : Nat) (rest : List Nat) :
    (utf8Step b rest).2.length ≤ rest.length := by
  unfold utf8Step
  repeat' split
  all_goals simp_all
  all_goals omega

/-- Decode a byte sequence to characters, replacing invalid sequences with
U+FFFD; total, hence never panicking. -/
def utf8DecodeLossy : List Nat → List Char
  | [] => []
  | b :: rest =>
      (utf8Step b rest).1 :: utf8DecodeLossy (utf8Step b rest).2
termination_by l => l.length
decreasing_by
  simp_wf
  exact Nat.lt_succ_of_le (utf8Step_snd_length_le _ _)

/-- Model of `String::from_utf8_lossy(..).to_string()` on a byte list. -/
def fromUtf8Lossy (bytes : List Nat) : String := ⟨utf8DecodeLossy bytes⟩

/-! ### The per-session reader thread (pty.rs:89-109) -/

/-- One result of `reader.read(&mut buf)`: `ok bytes` is a successful read
returning `bytes.length` bytes (`ok []` is the zero-byte EOF read), `err` is
an I/O error. -/
inductive ReadResult where
  | ok (bytes : List Nat)
  | err (msg : String)

/-- An event emitted by a session's reader thread. -/
inductive PtyEvent where
  | output (session_id : Nat) (data : String)
  | exit (session_id : Nat)
  deriving DecidableEq, Repr

/-- The reader-thread loop (pty.rs:91-108) as a function from the sequence of
read results to the sequence of emitted events: a zero-byte read emits
`pty-exit` and breaks, an `n > 0`-byte read emits `pty-output` with the
lossily decoded text and continues, a read error logs and breaks. -/
def readerLoop (sid : Nat) : List ReadResult → List PtyEvent
  | [] => []
  | .ok [] :: _ => [.exit sid]
  | .ok (b :: bs) :: rest => .output sid (fromUtf8Lossy (b :: bs)) :: readerLoop sid rest
  | .err _ :: _ => []

/-- Does the read sequence reach the zero-byte EOF read before any error? -/
def reachesEof : List ReadResult → Bool
  | [] => false
  | .ok [] :: _ => true
  | .ok (_ :: _) :: rest => reachesEof rest
  | .err _ :: _ => false

/-- Is this event a `pty-output` event? -/
def PtyEvent.isOutput : PtyEvent → Bool
  | .output _ _ => true
  | .exit _ => false

/-! ### Output capture (output_capture.rs) -/

/-- `libc::STDOUT_FILENO`. -/
def STDOUT_FILENO : Nat := 1

/-- `libc::STDERR_FILENO`. -/
def STDERR_FILENO : Nat := 2

/-- Environment of one `redirect_fd` call: the result of `libc::pipe`
(the `(read_fd, write_fd)` pair, or `none` on failure) and whether
`libc::dup2` succeeds. -/
structure RedirectEnv where
  pipe : Option (Nat × Nat)
  dup2Ok : Bool

/-- `unix_capture::redirect_fd` (output_capture.rs:49-74): create a pipe,
duplicate its write end onto the target descriptor, return the read end;
`none` when the pipe or the redirection fails. -/
def redirect_fd (_target_fd : Nat) (e : RedirectEnv) : Option Nat :=
  match e.pipe with
  | none => none
  | some (read_fd, _write_fd) => if e.dup2Ok then some read_fd else none

/-- Environment of one `start_capture` call: one `RedirectEnv` per stream. -/
structure CaptureEnv where
  stdout : RedirectEnv
  stderr : RedirectEnv

/-- Observable side effects of one `start_capture` call: the target
descriptors on which `redirect_fd` was invoked, and the reader threads
started (read fd, stream name). -/
structure CaptureEffects where
  redirectCalls : List Nat
  threads : List (Nat × String)
  deriving DecidableEq, Repr

/-- `unix_capture::start_capture` (output_capture.rs:23-46): swap the
`CAPTURE_ACTIVE` flag to `true`; if it was already set, return immediately;
otherwise redirect stdout and stderr, starting one reader thread per
successful redirection.  Returns the new flag value and this call's
effects. -/
def start_capture (captureActive : Bool) (e : CaptureEnv) :
    Bool × CaptureEffects :=
  if captureActive then (true, ⟨[], []⟩)
  else
    let stdoutThreads :=
      match redirect_fd STDOUT_FILENO e.stdout with
      | some read_fd => [(read_fd, "stdout")]
      | none => []
    let stderrThreads :=
      match redirect_fd STDERR_FILENO e.stderr with
      | some read_fd => [(read_fd, "stderr")]
      | none => []
    (true, ⟨[STDOUT_FILENO, STDERR_FILENO], stdoutThreads ++ stderrThreads⟩)

/-- One result of `reader.lines()` in the capture reader: a complete line
with its terminator stripped, or an I/O error. -/
inductive LineResult where
  | ok (text : String)
  | err (msg : String)

/-- Payload of a `vivid-output` event (output_capture.rs:17-20). -/
structure OutputPayload where
  stream : String
  text : String
  deriving DecidableEq, Repr

/-- `unix_capture::read_and_emit` (output_capture.rs:77-99) as a function
from the sequence of line results to the emitted `vivid-output` payloads: a
non-empty line emits one payload, an empty line emits nothing, an error logs
and breaks. -/
def read_and_emit (stream_name : String) : List LineResult → List OutputPayload
  | [] => []
  | .ok text :: rest =>
      (if !text.isEmpty then [⟨stream_name, text⟩] else []) ++
        read_and_emit stream_name rest
  | .err _ :: _ => []

/-! ### Traces of registry operations -/

/-- One external call into the registry (the four Tauri commands). -/
inductive Op (σ : Type) where
  | spawn (e : SpawnEnv σ) (rows cols : Nat)
  | write (session_id : Nat) (data : String) (e : WriteEnv)
  | resize (session_id : Nat) (rows cols : Nat) (e : Except String Unit)
  | close (session_id : Nat)

/-- The manager state after executing one operation. -/
def runOp (m : PtyManager σ) : Op σ → PtyManager σ
  | .spawn e rows cols => (m.spawn_shell e rows cols).mgr
  | .write session_id data e => (m.write session_id data e).2
  | .resize session_id rows cols e => (m.resize session_id rows cols e).2
  | .close session_id => (m.close session_id).2

/-- The manager state after executing a sequence of operations. -/
def runOps (m : PtyManager σ) : List (Op σ) → PtyManager σ
  | [] => m
  | op :: ops => runOps (runOp m op) ops

/-- Does a `spawn_shell` call with this environment succeed?  (Success is
determined by the four fallible OS steps alone.) -/
def spawnSucceeds (e : SpawnEnv σ) : Bool :=
  e.openpty.isOk && e.spawn_command.isOk && e.take_writer.isOk &&
    e.try_clone_reader.isOk

/-- The session identifiers issued by the successful spawns of a trace, in
order. -/
def issuedIds (m : PtyManager σ) : List (Op σ) → List Nat
  | [] => []
  | op :: ops =>
    (match op with
     | .spawn e rows cols =>
       match (m.spawn_shell e rows cols).result with
       | .ok id => [id]
       | .error _ => []
     | _ => []) ++ issuedIds (runOp m op) ops

/-- Number of successful spawns in a trace. -/
def countSpawnSuccess : List (Op σ) → Nat
  | [] => 0
  | .spawn e _ _ :: ops => (if spawnSucceeds e then 1 else 0) + countSpawnSuccess ops
  | .write _ _ _ :: ops => countSpawnSuccess ops
  | .resize _ _ _ _ :: ops => countSpawnSuccess ops
  | .close _ :: ops => countSpawnSuccess ops

/-! ### Helper lemmas -/

theorem lookupAssoc_eq_none_iff (l : List (Nat × σ)) (k : Nat) :
    lookupAssoc l k = none ↔ k ∉ l.map Prod.fst := by
  induction l with
  | nil => simp [lookupAssoc]
  | cons p rest ih =>
    obtain ⟨k', v⟩ := p
    by_cases h : k' = k
    · subst h; simp [lookupAssoc]
    · rw [List.map_cons, List.mem_cons]
      simp only [lookupAssoc, if_neg h, ih]
      constructor
      · rintro hnot (rfl | hmem)
        · exact h rfl
        · exact hnot hmem
      · exact fun hnot hmem => hnot (Or.inr hmem)

theorem removeAssoc_eq_none_iff (l : List (Nat × σ)) (k : Nat) :
    removeAssoc l k = none ↔ lookupAssoc l k = none := by
  induction l with
  | nil => simp [removeAssoc, lookupAssoc]
  | cons p rest ih =>
    obtain ⟨k', v⟩ := p
    by_cases h : k' = k <;> simp [removeAssoc, lookupAssoc, h, ih]

theorem lookupAssoc_after_remove (l : List (Nat × σ)) (k : Nat) (v : σ)
    (rest : List (Nat × σ)) (hnd : (l.map Prod.fst).Nodup)
    (h : removeAssoc l k = some (v, rest)) : lookupAssoc rest k = none := by
  induction l generalizing rest with
  | nil => simp [removeAssoc] at h
  | cons p tail ih =>
    obtain ⟨k', w⟩ := p
    by_cases hk : k' = k
    all_goals
      rw [List.map_cons, List.nodup_cons] at hnd
    · simp only [removeAssoc, if_pos hk, Option.some.injEq, Prod.mk.injEq] at h
      obtain ⟨-, hrest⟩ := h
      subst hrest
      exact (lookupAssoc_eq_none_iff tail k).2 (hk ▸ hnd.1)
    · simp only [removeAssoc, if_neg hk, Option.map_eq_some'] at h
      obtain ⟨⟨v', rest'⟩, hrem, heq⟩ := h
      obtain ⟨hv, hrest⟩ := Prod.mk.injEq .. ▸ heq
      subst hrest
      simp only [lookupAssoc, if_neg hk]
      exact ih rest' hnd.2 (hv ▸ hrem)

theorem spawn_shell_success (m : PtyManager σ) (e : SpawnEnv σ)
    (rows cols : Nat) (h : spawnSucceeds e = true) :
    m.spawn_shell e rows cols =
      ⟨.ok m.next_id,
       ⟨insertAssoc m.sessions m.next_id e.session, (m.next_id + 1) % u32Size⟩,
       some ⟨e.shellVar.getD "/bin/zsh",
         [("TERM", "xterm-256color"), ("COLORTERM", "truecolor")]⟩,
       true⟩ := by
  obtain ⟨o, sv, sc, tw, tc, s⟩ := e
  simp only [spawnSucceeds, Bool.and_eq_true] at h
  cases o <;> cases sc <;> cases tw <;> cases tc <;>
    simp_all [PtyManager.spawn_shell, Except.isOk, Except.toBool]

theorem spawn_shell_failure (m : PtyManager σ) (e : SpawnEnv σ)
    (rows cols : Nat) (h : ¬ spawnSucceeds e = true) :
    (∃ msg, (m.spawn_shell e rows cols).result = .error msg) ∧
      (m.spawn_shell e rows cols).mgr = m ∧
      (m.spawn_shell e rows cols).threadStarted = false := by
  obtain ⟨o, sv, sc, tw, tc, s⟩ := e
  simp only [spawnSucceeds, Bool.and_eq_true, not_and] at h
  cases o <;> cases sc <;> cases tw <;> cases tc <;>
    simp_all [PtyManager.spawn_shell, Except.isOk, Except.toBool]

theorem write_state_eq (m : PtyManager σ) (session_id : Nat) (data : String)
    (e : WriteEnv) : (m.write session_id data e).2 = m := by
  unfold PtyManager.write
  repeat' split
  all_goals rfl

theorem resize_state_eq (m : PtyManager σ) (session_id rows cols : Nat)
    (e : Except String Unit) : (m.resize session_id rows cols e).2 = m := by
  unfold PtyManager.resize
  repeat' split
  all_goals rfl

theorem close_next_id (m : PtyManager σ) (session_id : Nat) :
    (m.close session_id).2.next_id = m.next_id := by
  unfold PtyManager.close
  repeat' split
  all_goals rfl

theorem range'_cons_eq (s n : Nat) :
    s :: List.range' (s + 1) n = List.range' s (1 + n) := by
  rw [Nat.add_comm 1 n]
  rfl

theorem issuedIds_nil_of_count_zero (ops : List (Op σ)) :
    ∀ m : PtyManager σ, countSpawnSuccess ops = 0 → issuedIds m ops = [] := by
  induction ops with
  | nil => intro m _; rfl
  | cons op ops ih =>
    intro m hc
    cases op with
    | spawn e rows cols =>
      have hs : ¬ spawnSucceeds e = true := by
        intro h; simp [countSpawnSuccess, h] at hc
      obtain ⟨⟨msg, hres⟩, hmgr, -⟩ := spawn_shell_failure m e rows cols hs
      have hc' : countSpawnSuccess ops = 0 := by
        have : countSpawnSuccess (Op.spawn e rows cols :: ops) =
            (if spawnSucceeds e then 1 else 0) + countSpawnSuccess ops := rfl
        rw [this, Bool.eq_false_iff.2 hs] at hc
        simpa using hc
      simp [issuedIds, runOp, hres, hmgr, ih _ hc']
    | write session_id data e => exact ih _ hc
    | resize session_id rows cols e => exact ih _ hc
    | close session_id => exact ih _ hc

theorem issuedIds_eq_range' (ops : List (Op σ)) :
    ∀ m : PtyManager σ,
      m.next_id + countSpawnSuccess ops ≤ u32Size →
      issuedIds m ops = List.range' m.next_id (countSpawnSuccess ops) := by
  induction ops with
  | nil => intro m _; rfl
  | cons op ops ih =>
    intro m hb
    cases op with
    | spawn e rows cols =>
      by_cases hs : spawnSucceeds e = true
      · have h := spawn_shell_success m e rows cols hs
        have hcnt : countSpawnSuccess (Op.spawn e rows cols :: ops) =
            1 + countSpawnSuccess ops := by
          show (if spawnSucceeds e then 1 else 0) + countSpawnSuccess ops = _
          rw [hs]; simp
        rw [hcnt] at hb ⊢
        by_cases hc : countSpawnSuccess ops = 0
        · simp only [issuedIds, runOp, h, List.singleton_append, hc,
            issuedIds_nil_of_count_zero ops _ hc]
          rfl
        · have hlt : m.next_id + 1 < u32Size := by omega
          have hmod : (m.next_id + 1) % u32Size = m.next_id + 1 :=
            Nat.mod_eq_of_lt hlt
          simp only [issuedIds, runOp, h, List.singleton_append]
          rw [ih ⟨insertAssoc m.sessions m.next_id e.session,
              (m.next_id + 1) % u32Size⟩ (by simp only [hmod]; omega)]
          simp only [hmod]
          exact range'_cons_eq m.next_id (countSpawnSuccess ops)
      · obtain ⟨⟨msg, hres⟩, hmgr, -⟩ := spawn_shell_failure m e rows cols hs
        have hcnt : countSpawnSuccess (Op.spawn e rows cols :: ops) =
            countSpawnSuccess ops := by
          show (if spawnSucceeds e then 1 else 0) + countSpawnSuccess ops = _
          rw [Bool.eq_false_iff.2 hs]; simp
        rw [hcnt] at hb ⊢
        simp [issuedIds, runOp, hres, hmgr, ih _ hb]
    | write session_id data e =>
      simp only [issuedIds, runOp, List.nil_append, write_state_eq]
      exact ih m hb
    | resize session_id rows cols e =>
      simp only [issuedIds, runOp, List.nil_append, resize_state_eq]
      exact ih m hb
    | close session_id =>
      have hb' : (m.close session_id).2.next_id +
          countSpawnSuccess ops ≤ u32Size := by
        rw [close_next_id]; exact hb
      simp only [issuedIds, runOp, List.nil_append, ih _ hb']
      rw [close_next_id]
      rfl

theorem issuedIds_cons_spawn_success (m : PtyManager σ) (e : SpawnEnv σ)
    (hs : spawnSucceeds e = true) (rows cols : Nat) (ops : List (Op σ)) :
    issuedIds m (Op.spawn e rows cols :: ops) =
      m.next_id :: issuedIds (m.spawn_shell e rows cols).mgr ops := by
  have h := spawn_shell_success m e rows cols hs
  simp [issuedIds, runOp, h]

theorem issuedIds_cons_close (m : PtyManager σ) (session_id : Nat)
    (ops : List (Op σ)) :
    issuedIds m (Op.close session_id :: ops) =
      issuedIds (m.close session_id).2 ops := rfl

theorem issuedIds_replicate_spawn (e : SpawnEnv σ)
    (hs : spawnSucceeds e = true) (rows cols k : Nat) :
    ∀ m : PtyManager σ, m.next_id < u32Size →
      issuedIds m (List.replicate k (Op.spawn e rows cols)) =
        (List.range k).map (fun i => (m.next_id + i) % u32Size) := by
  induction k with
  | zero => intro m _; rfl
  | succ n ih =>
    intro m hm
    rw [List.replicate_succ, issuedIds_cons_spawn_success m e hs rows cols,
      spawn_shell_success m e rows cols hs]
    rw [ih _ (Nat.mod_lt _ (by rw [u32Size]; norm_num))]
    rw [List.range_succ_eq_map, List.map_cons, List.map_map]
    congr 1
    · exact (Nat.mod_eq_of_lt hm).symm
    · apply List.map_congr_left
      intro i _
      simp only [Function.comp_apply, Nat.mod_add_mod]
      congr 1
      omega

theorem readerLoop_count_exit (sid : Nat) (reads : List ReadResult) :
    (readerLoop sid reads).count (PtyEvent.exit sid) =
      (if reachesEof reads then 1 else 0) := by
  induction reads with
  | nil => rfl
  | cons r rest ih =>
    cases r with
    | ok bytes =>
      cases bytes with
      | nil => simp [readerLoop, reachesEof]
      | cons b bs => simp [readerLoop, reachesEof, List.count_cons, ih]
    | err msg => rfl

theorem readerLoop_dropLast_output (sid : Nat) (reads : List ReadResult) :
    ((readerLoop sid reads).dropLast.all PtyEvent.isOutput) = true := by
  induction reads with
  | nil => rfl
  | cons r rest ih =>
    cases r with
    | ok bytes =>
      cases bytes with
      | nil => rfl
      | cons b bs =>
        cases hevs : readerLoop sid rest with
        | nil => simp [readerLoop, hevs]
        | cons x xs =>
          rw [hevs] at ih
          simp [readerLoop, hevs, List.dropLast, PtyEvent.isOutput, ih]
    | err msg => rfl

/-! ### Claim theorems -/

theorem chain'_append_pair {a b : Nat} :
    ∀ l : List Nat, List.Chain' (· < ·) (l ++ [a, b]) → a < b := by
  intro l
  induction l with
  | nil => exact fun h => (List.chain'_cons.mp h).1
  | cons x xs ih => exact fun h => ih (List.chain'_cons'.mp h).2

/-- Claim C1 counterexample: the source counter is a `u32` and `*id += 1`
(pty.rs:70) wraps in a release build, so over the concrete trace of `2^32`
successful spawns the issued identifiers are not strictly increasing (the
counter wraps from `2^32 - 1` to `0`); and in the concrete trace that spawns
session 1, closes it, and then spawns `2^32` more times, identifier 1 is
issued again after having been closed, so the issued identifiers are not
pairwise distinct. -/
theorem spawn_ids_wrap_counterexample :
    ¬ (issuedIds (PtyManager.new (σ := Unit))
        (List.replicate (2 ^ 32)
          (Op.spawn ⟨.ok (), none, .ok (), .ok (), .ok (), ()⟩ 24 80))).Chain'
        (· < ·) ∧
    ¬ (issuedIds (PtyManager.new (σ := Unit))
        (Op.spawn ⟨.ok (), none, .ok (), .ok (), .ok (), ()⟩ 24 80 ::
          Op.close 1 ::
          List.replicate (2 ^ 32)
            (Op.spawn ⟨.ok (), none, .ok (), .ok (), .ok (), ()⟩ 24 80))).Nodup := by
  constructor
  · intro hch
    have hform := issuedIds_replicate_spawn (σ := Unit)
      ⟨.ok (), none, .ok (), .ok (), .ok (), ()⟩ rfl 24 80 (2 ^ 32)
      PtyManager.new (by decide)
    simp only [show (PtyManager.new (σ := Unit)).next_id = 1 from rfl] at hform
    rw [hform] at hch
    rw [show (2 : Nat) ^ 32 = 4294967295 + 1 from by norm_num,
      List.range_succ] at hch
    rw [show (4294967295 : Nat) = 4294967294 + 1 from by norm_num,
      List.range_succ] at hch
    rw [List.append_assoc, List.singleton_append, List.map_append] at hch
    simp only [List.map_cons, List.map_nil] at hch
    generalize List.map (fun i => (1 + i) % u32Size)
      (List.range 4294967294) = L at hch
    have hlt := chain'_append_pair L hch
    norm_num [u32Size] at hlt
  · intro hnd
    rw [issuedIds_cons_spawn_success (PtyManager.new (σ := Unit))
      ⟨.ok (), none, .ok (), .ok (), .ok (), ()⟩ rfl 24 80,
      issuedIds_cons_close] at hnd
    have hm2 : ((((PtyManager.new (σ := Unit)).spawn_shell
        ⟨.ok (), none, .ok (), .ok (), .ok (), ()⟩ 24 80).mgr).close 1).2 =
        ⟨[], 2⟩ := by decide
    rw [hm2] at hnd
    rw [issuedIds_replicate_spawn (σ := Unit)
      ⟨.ok (), none, .ok (), .ok (), .ok (), ()⟩ rfl 24 80 (2 ^ 32)
      ⟨[], 2⟩ (by decide)] at hnd
    have h1 : (1 : Nat) ∈ (List.range (2 ^ 32)).map
        (fun i => ((⟨[], 2⟩ : PtyManager Unit).next_id + i) % u32Size) := by
      refine List.mem_map.mpr ⟨4294967295, List.mem_range.mpr (by norm_num), ?_⟩
      norm_num [u32Size]
    rw [List.nodup_cons] at hnd
    exact hnd.1 h1

/-- Claim C1 (amended): over every trace in which fewer than `2^32` spawns
succeed — so the `u32` counter never wraps — the identifiers issued by
successful `spawn_shell` calls are strictly increasing and pairwise
distinct, the first issued identifier is 1, and each successful spawn
returns the current counter value and increments the counter modulo `2^32`;
hence, below the wrap bound, an identifier removed by `close` is never
issued again by a later spawn. -/
theorem spawn_ids_monotone (ops : List (Op σ)) (m : PtyManager σ)
    (e : SpawnEnv σ) (rows cols : Nat)
    (hk : countSpawnSuccess ops < u32Size) :
    (issuedIds (PtyManager.new (σ := σ)) ops).Chain' (· < ·) ∧
    (issuedIds (PtyManager.new (σ := σ)) ops).Nodup ∧
    (issuedIds (PtyManager.new (σ := σ)) ops = [] ∨
      (issuedIds (PtyManager.new (σ := σ)) ops).head? = some 1) ∧
    (spawnSucceeds e = true →
      (m.spawn_shell e rows cols).result = .ok m.next_id ∧
      (m.spawn_shell e rows cols).mgr.next_id = (m.next_id + 1) % u32Size) := by
  have hnew : (PtyManager.new (σ := σ)).next_id = 1 := rfl
  have hids := issuedIds_eq_range' ops (PtyManager.new (σ := σ))
    (by rw [hnew]; omega)
  rw [hnew] at hids
  refine ⟨?_, ?_, ?_, ?_⟩
  · rw [hids]; exact (List.pairwise_lt_range' 1 _).chain'
  · rw [hids]; exact List.nodup_range' 1 _
  · rw [hids]
    cases h : countSpawnSuccess ops with
    | zero => exact Or.inl rfl
    | succ n => exact Or.inr (by simp [List.head?_range'])
  · intro hs
    rw [spawn_shell_success m e rows cols hs]
    exact ⟨rfl, rfl⟩

/-- Witness for `spawn_ids_monotone`: the very first successful spawn on a
fresh manager returns identifier 1 and leaves the counter at 2. -/
theorem spawn_ids_monotone_witness :
    ((PtyManager.new (σ := Unit)).spawn_shell
        ⟨.ok (), none, .ok (), .ok (), .ok (), ()⟩ 24 80).result = .ok 1 ∧
    ((PtyManager.new (σ := Unit)).spawn_shell
        ⟨.ok (), none, .ok (), .ok (), .ok (), ()⟩ 24 80).mgr.next_id = 2 := by
  have h := spawn_ids_monotone (σ := Unit) [] PtyManager.new
    ⟨.ok (), none, .ok (), .ok (), .ok (), ()⟩ 24 80 (by decide)
  refine ⟨(h.2.2.2 rfl).1, ?_⟩
  have h2 := (h.2.2.2 rfl).2
  rw [h2]
  decide

/-- Claim C2: one step of a session's reader thread: a zero-byte read emits
exactly one `pty-exit` event carrying the session id and terminates the
loop; a read of `n > 0` bytes emits one `pty-output` event carrying the
session id and the bytes decoded by the total (hence never panicking) lossy
UTF-8 decoder, and the loop continues; a read error terminates the loop with
no further event. -/
theorem reader_thread_events (sid b : Nat) (bs : List Nat)
    (rest : List ReadResult) (msg : String) :
    readerLoop sid (.ok [] :: rest) = [.exit sid] ∧
    readerLoop sid (.ok (b :: bs) :: rest) =
      .output sid (fromUtf8Lossy (b :: bs)) :: readerLoop sid rest ∧
    readerLoop sid (.err msg :: rest) = [] :=
  ⟨rfl, rfl, rfl⟩

/-- Claim C3: when any fallible step of `spawn_shell` fails, the call
returns an error, the manager state (session map and identifier counter) is
exactly as before, and no reader thread is started. -/
theorem spawn_shell_atomic_failure (m : PtyManager σ) (e : SpawnEnv σ)
    (rows cols : Nat) (h : spawnSucceeds e = false) :
    (∃ msg, (m.spawn_shell e rows cols).result = .error msg) ∧
    (m.spawn_shell e rows cols).mgr = m ∧
    (m.spawn_shell e rows cols).threadStarted = false :=
  spawn_shell_failure m e rows cols (by simp [h])

/-- Witness for `spawn_shell_atomic_failure`: a spawn whose PTY allocation
fails leaves a fresh manager untouched and starts no thread. -/
theorem spawn_shell_atomic_failure_witness :
    (∃ msg, ((PtyManager.new (σ := Unit)).spawn_shell
        ⟨.error "boom", none, .ok (), .ok (), .ok (), ()⟩ 24 80).result =
          .error msg) ∧
    ((PtyManager.new (σ := Unit)).spawn_shell
        ⟨.error "boom", none, .ok (), .ok (), .ok (), ()⟩ 24 80).mgr =
      PtyManager.new ∧
    ((PtyManager.new (σ := Unit)).spawn_shell
        ⟨.error "boom", none, .ok (), .ok (), .ok (), ()⟩ 24 80).threadStarted =
      false :=
  spawn_shell_atomic_failure PtyManager.new
    ⟨.error "boom", none, .ok (), .ok (), .ok (), ()⟩ 24 80 rfl

/-- Claim C4: `write`, `resize` and `close` on an identifier absent from the
session map fail with the "Session … not found" error and leave the manager
exactly as it was; and once `close` succeeds on an identifier (with the
map's keys distinct, as a `HashMap`'s are), a subsequent `write` or `resize`
on that identifier fails with the same error. -/
theorem session_not_found_semantics (m : PtyManager σ) (session_id : Nat)
    (data : String) (we : WriteEnv) (re : Except String Unit)
    (rows cols : Nat) (hnd : (m.sessions.map Prod.fst).Nodup) :
    (lookupAssoc m.sessions session_id = none →
      m.write session_id data we =
        (.error ("Session " ++ toString session_id ++ " not found"), m) ∧
      m.resize session_id rows cols re =
        (.error ("Session " ++ toString session_id ++ " not found"), m) ∧
      m.close session_id =
        (.error ("Session " ++ toString session_id ++ " not found"), m)) ∧
    ((m.close session_id).1 = .ok () →
      ((m.close session_id).2.write session_id data we).1 =
        .error ("Session " ++ toString session_id ++ " not found") ∧
      ((m.close session_id).2.resize session_id rows cols re).1 =
        .error ("Session " ++ toString session_id ++ " not found")) := by
  constructor
  · intro h
    refine ⟨?_, ?_, ?_⟩
    · simp only [PtyManager.write, h]
    · simp only [PtyManager.resize, h]
    · simp only [PtyManager.close, (removeAssoc_eq_none_iff _ _).2 h]
  · intro hc
    cases hrem : removeAssoc m.sessions session_id with
    | none =>
      simp only [PtyManager.close, hrem] at hc
      exact absurd hc (by simp)
    | some p =>
      obtain ⟨v, rest⟩ := p
      have hstate : (m.close session_id).2 = { m with sessions := rest } := by
        simp only [PtyManager.close, hrem]
      have hlook : lookupAssoc rest session_id = none :=
        lookupAssoc_after_remove m.sessions session_id v rest hnd hrem
      rw [hstate]
      constructor
      · simp only [PtyManager.write, hlook]
      · simp only [PtyManager.resize, hlook]

/-- Witness for `session_not_found_semantics`: on the map holding only
session 1, a `write` to the never-issued id 5 fails without touching the
map, and a `write` to id 1 right after a successful `close 1` fails too. -/
theorem session_not_found_semantics_witness :
    (⟨[(1, 0)], 2⟩ : PtyManager Nat).write 5 "x" ⟨.ok (), .ok ()⟩ =
      (.error "Session 5 not found", ⟨[(1, 0)], 2⟩) ∧
    (((⟨[(1, 0)], 2⟩ : PtyManager Nat).close 1).2.write 1 "x"
        ⟨.ok (), .ok ()⟩).1 = .error "Session 1 not found" := by
  have h5 := session_not_found_semantics (⟨[(1, 0)], 2⟩ : PtyManager Nat) 5
    "x" ⟨.ok (), .ok ()⟩ (.ok ()) 24 80 (by decide)
  have h1 := session_not_found_semantics (⟨[(1, 0)], 2⟩ : PtyManager Nat) 1
    "x" ⟨.ok (), .ok ()⟩ (.ok ()) 24 80 (by decide)
  exact ⟨(h5.1 rfl).1, (h1.2 rfl).1⟩

/-- Claim C5: over any sequence of read results, a session's reader thread
emits the `pty-exit` event exactly once if the stream reaches the zero-byte
EOF read (and never otherwise), and every emitted event other than the final
one is a `pty-output` event — so no output follows the exit event. -/
theorem pty_exit_once_and_last (sid : Nat) (reads : List ReadResult) :
    (readerLoop sid reads).count (PtyEvent.exit sid) =
      (if reachesEof reads then 1 else 0) ∧
    ((readerLoop sid reads).dropLast.all PtyEvent.isOutput) = true :=
  ⟨readerLoop_count_exit sid reads, readerLoop_dropLast_output sid reads⟩

/-- Claim C6: `start_capture` is idempotent: a first call (flag clear)
invokes the redirection on both standard descriptors and sets the flag; any
call leaves the flag set; and a call made with the flag already set performs
no redirection and starts no thread. -/
theorem start_capture_idempotent (b : Bool) (e1 e2 : CaptureEnv) :
    (start_capture false e1).2.redirectCalls = [STDOUT_FILENO, STDERR_FILENO] ∧
    (start_capture b e1).1 = true ∧
    start_capture (start_capture b e1).1 e2 = (true, ⟨[], []⟩) := by
  cases b <;> exact ⟨rfl, rfl, rfl⟩

/-- Claim C7 counterexample: an empty line read from a captured stream emits
no `vivid-output` event, refuting "exactly one event per complete
newline-terminated line". -/
theorem capture_empty_line_counterexample :
    (read_and_emit "stdout" [LineResult.ok ""]).length ≠ 1 := by decide

/-- Claim C7 (amended): the capture reader emits exactly one `vivid-output`
event, tagged with the stream's logical name, per complete *non-empty* line;
empty lines emit nothing. -/
theorem capture_one_event_per_nonempty_line (s : String)
    (lines : List String) :
    read_and_emit s (lines.map LineResult.ok) =
      (lines.filter (fun t => !t.isEmpty)).map
        (fun t => OutputPayload.mk s t) := by
  induction lines with
  | nil => rfl
  | cons t rest ih =>
    cases h : t.isEmpty <;> simp [read_and_emit, List.filter_cons, h, ih]

/-- Claim C8: `resize` never alters the registry: whatever the identifier,
geometry and OS outcome, the manager state after the call is the state
before it. -/
theorem resize_preserves_registry (m : PtyManager σ)
    (session_id rows cols : Nat) (e : Except String Unit) :
    (m.resize session_id rows cols e).2 = m :=
  resize_state_eq m session_id rows cols e

/-- Claim C9: whenever `spawn_shell` launches a command, its program is the
value of `SHELL` when set and `/bin/zsh` otherwise, and its environment
contains `TERM=xterm-256color` and `COLORTERM=truecolor`. -/
theorem spawn_shell_env (m : PtyManager σ) (e : SpawnEnv σ) (rows cols : Nat)
    (c : Cmd) (h : (m.spawn_shell e rows cols).launched = some c) :
    c.program = e.shellVar.getD "/bin/zsh" ∧
    (∀ s, e.shellVar = some s → c.program = s) ∧
    (e.shellVar = none → c.program = "/bin/zsh") ∧
    ("TERM", "xterm-256color") ∈ c.env ∧
    ("COLORTERM", "truecolor") ∈ c.env := by
  obtain ⟨o, sv, sc, tw, tc, s⟩ := e
  cases o <;> cases sc <;> cases tw <;> cases tc <;>
    simp_all [PtyManager.spawn_shell] <;>
    (try subst h) <;>
    simp_all

/-- Witness for `spawn_shell_env`: with `SHELL=/bin/bash`, the launched
command runs `/bin/bash` and carries the two terminal variables. -/
theorem spawn_shell_env_witness :
    (Cmd.mk "/bin/bash"
      [("TERM", "xterm-256color"), ("COLORTERM", "truecolor")]).program =
      "/bin/bash" ∧
    ("TERM", "xterm-256color") ∈
      (Cmd.mk "/bin/bash"
        [("TERM", "xterm-256color"), ("COLORTERM", "truecolor")]).env := by
  have h := spawn_shell_env (PtyManager.new (σ := Unit))
    ⟨.ok (), some "/bin/bash", .ok (), .ok (), .ok (), ()⟩ 24 80
    (Cmd.mk "/bin/bash" [("TERM", "xterm-256color"), ("COLORTERM", "truecolor")])
    rfl
  exact ⟨h.2.1 "/bin/bash" rfl, h.2.2.2.1⟩

/-- Claim C10: every `vivid-output` payload the capture reader emits has
non-empty text, and an empty line contributes no event at all. -/
theorem capture_never_emits_empty (s : String)
    (results rest : List LineResult) :
    ((read_and_emit s results).all (fun p => !p.text.isEmpty)) = true ∧
    read_and_emit s (.ok "" :: rest) = read_and_emit s rest := by
  refine ⟨?_, by simp [read_and_emit, show "".isEmpty = true from rfl]⟩
  induction results with
  | nil => rfl
  | cons r rs ih =>
    cases r with
    | ok text => cases h : text.isEmpty <;> simp [read_and_emit, h, ih]
    | err msg => rfl

end Vivid
